import Mathlib

/-!
Verification of the SherimaX/GUI telemetry-dashboard pipeline.

The development shallowly embeds the pipeline pieces of the repository:
the bounded hand-off queues (`state.py`, `listener.py`), the drop-oldest /
drop-newest overflow policies (`network.py`, `listener.py`), the SSE
subscriber cap (`app.py` / `dash_app.py`), the control-packet rate limiter
(`network.py`), the binary packet codec (`utils.py`, `main.py`, `app.py`),
the incremental `avg_dt` estimator (`network.py`), and the client-side
window / ring-buffer cap computation (`dash_app.py`).

Machine-level conventions: a byte is a `Nat` (values < 256 where produced),
a 32-bit IEEE-754 float is represented by its bit pattern, a `Nat` reduced
mod 2^32 where overflow matters.  Real-valued quantities (timestamps,
averages, window seconds) are modelled over `ℚ`.
-/

/- ------------------------------------------------------------------ -/
/- SampleQueue: drop-oldest put (src/network.py lines 113-123, also
   lines 164-174): `event_q.put_nowait(sample)`; on `queue.Full`,
   `event_q.get_nowait()` evicts the oldest enqueued sample and the put
   is retried.  The queue is a FIFO: the list front is the oldest
   element.  The embedding is a total function, so the producer never
   blocks. -/

/-- Drop-oldest put of the TCP ingest loop (src/network.py lines 113-123). -/
def putDropOldest (cap : Nat) (q : List Nat) (x : Nat) : List Nat :=
  if q.length < cap then q ++ [x] else q.drop 1 ++ [x]

/-- Run a sequence of puts through `putDropOldest`, starting from queue `q`. -/
def runPuts (cap : Nat) (q : List Nat) (xs : List Nat) : List Nat :=
  xs.foldl (putDropOldest cap) q

/-- General shape of a drop-oldest run: starting below capacity, the queue
holds the most recent `cap` elements of everything ever offered. -/
theorem runPuts_eq_drop (cap : Nat) (hcap : 1 ≤ cap) (xs : List Nat) :
    ∀ q : List Nat, q.length ≤ cap →
      runPuts cap q xs = (q ++ xs).drop (q.length + xs.length - cap) := by
  induction xs with
  | nil =>
      intro q hq
      simp [runPuts, Nat.sub_eq_zero_of_le hq]
  | cons x xs ih =>
      intro q hq
      simp only [runPuts] at ih ⊢
      rw [List.foldl_cons]
      by_cases h : q.length < cap
      · have hx : putDropOldest cap q x = q ++ [x] := if_pos h
        rw [hx, ih (q ++ [x]) (by simpa using h)]
        have hl : (q ++ [x]) ++ xs = q ++ x :: xs := by simp
        rw [hl]
        have hidx : (q ++ [x]).length + xs.length - cap
            = q.length + (x :: xs).length - cap := by
          simp only [List.length_append, List.length_cons, List.length_nil]
          omega
        rw [hidx]
      · have hqc : q.length = cap := le_antisymm hq (le_of_not_lt h)
        have hx : putDropOldest cap q x = q.drop 1 ++ [x] := if_neg h
        rw [hx]
        have hlen1 : (q.drop 1 ++ [x]).length = cap := by
          simp only [List.length_append, List.length_cons, List.length_nil,
            List.length_drop]
          omega
        rw [ih (q.drop 1 ++ [x]) (le_of_eq hlen1)]
        have hl : (q.drop 1 ++ [x]) ++ xs = q.drop 1 ++ x :: xs := by simp
        rw [hl, hlen1]
        have hidx : cap + xs.length - cap = xs.length := by omega
        rw [hidx]
        have hsplit : (q ++ x :: xs).drop (q.length + (x :: xs).length - cap)
            = (q.drop 1 ++ x :: xs).drop xs.length := by
          have h1 : q.length + (x :: xs).length - cap = xs.length + 1 := by
            simp only [List.length_cons]
            omega
          rw [h1]
          have h2 : (q ++ x :: xs).drop 1 = q.drop 1 ++ x :: xs := by
            rw [List.drop_append_eq_append_drop]
            have : 1 - q.length = 0 := by omega
            rw [this, List.drop_zero]
          calc (q ++ x :: xs).drop (xs.length + 1)
              = ((q ++ x :: xs).drop 1).drop xs.length := by
                rw [List.drop_drop, Nat.add_comm]
            _ = (q.drop 1 ++ x :: xs).drop xs.length := by rw [h2]
        rw [hsplit]

/-- C1: SampleQueue with capacity N: after N+1 `put` calls with no
intervening `get`, starting from an empty queue, the queue holds exactly
the N most recently put samples in arrival order — the oldest (first) put
is the one evicted.  `putDropOldest` is a total function, so `put` never
blocks the producer (src/network.py lines 113-123, src/state.py line 6). -/
theorem sampleQueue_drop_oldest (N : Nat) (hN : 1 ≤ N)
    (xs : List Nat) (hlen : xs.length = N + 1) :
    runPuts N [] xs = xs.drop 1 ∧ (runPuts N [] xs).length = N := by
  have h := runPuts_eq_drop N hN xs [] (by simp)
  simp at h
  rw [hlen] at h
  have hidx : N + 1 - N = 1 := by omega
  rw [hidx] at h
  constructor
  · exact h
  · rw [h]
    simp [hlen]

/-- Witness for C1 at N = 3 with four concrete puts. -/
theorem sampleQueue_drop_oldest_witness :
    runPuts 3 [] [10, 11, 12, 13] = [11, 12, 13] ∧
      (runPuts 3 [] [10, 11, 12, 13]).length = 3 := by
  have h := sampleQueue_drop_oldest 3 (by decide) [10, 11, 12, 13] (by decide)
  simpa using h

/- ------------------------------------------------------------------ -/
/- Listener queue: drop-newest put (src/listener.py lines 92-96):
   `EVENT_Q.put_nowait(decoded)` wrapped in `try ... except Exception:
   pass` — when the queue is full the `Full` exception is swallowed and
   the new sample is simply discarded; nothing is evicted. -/

/-- Capacity of `listener.EVENT_Q` (src/listener.py line 31:
`Queue(maxsize=10_000)`). -/
def EVENT_Q_MAXSIZE : Nat := 10000

/-- Drop-newest put of the standalone listener (src/listener.py lines 92-96). -/
def listenerPut (cap : Nat) (q : List Nat) (x : Nat) : List Nat :=
  if q.length < cap then q ++ [x] else q

/-- C10: when `EVENT_Q` is full, the incoming (newest) sample is silently
discarded and the queue contents are left unchanged — no eviction of the
oldest enqueued sample (src/listener.py lines 92-96, line 31). -/
theorem listener_drop_newest (q : List Nat) (x : Nat)
    (hfull : q.length = EVENT_Q_MAXSIZE) :
    listenerPut EVENT_Q_MAXSIZE q x = q := by
  unfold listenerPut
  rw [if_neg]
  omega

/-- Witness for C10: a full queue of 10000 zeros is left unchanged. -/
theorem listener_drop_newest_witness :
    listenerPut EVENT_Q_MAXSIZE (List.replicate 10000 0) 7
      = List.replicate 10000 0 :=
  listener_drop_newest (List.replicate 10000 0) 7
    (by simp only [List.length_replicate]; rfl)

/- ------------------------------------------------------------------ -/
/- SSE subscriber cap (src/state.py lines 9-11, src/dash_app.py lines
   535-553, src/app.py lines 781-836): on connect, under `_client_lock`,
   if `_active_clients >= MAX_CLIENTS` reply 503 "Too many clients" and
   do not register; otherwise increment.  The generator's `finally`
   block decrements on disconnect. -/

/-- Maximum number of concurrent SSE clients (src/state.py line 9,
src/app.py line 77). -/
def MAX_CLIENTS : Nat := 5

/-- Connect handler of the SSE endpoint: returns the new active-client
count and whether the connection was registered (src/app.py lines
785-788, src/dash_app.py lines 538-541). -/
def sseConnect (n : Nat) : Nat × Bool :=
  if MAX_CLIENTS ≤ n then (n, false) else (n + 1, true)

/-- Disconnect handler: the `finally` block decrements the active-client
count (src/app.py lines 831-833, src/dash_app.py lines 549-551). -/
def sseDisconnect (n : Nat) : Nat := n - 1

/-- A subscriber lifecycle event at the SSE endpoint. -/
inductive ClientEvent where
  | connect
  | disconnect
deriving DecidableEq

/-- Effect of one lifecycle event on the active-client count. -/
def sseStep (n : Nat) : ClientEvent → Nat
  | .connect => (sseConnect n).1
  | .disconnect => sseDisconnect n

/-- Active-client count after a sequence of lifecycle events, starting
from `_active_clients = 0` (src/state.py line 10). -/
def runClients (evs : List ClientEvent) : Nat :=
  evs.foldl sseStep 0

/-- The active-client count never leaves `[0, MAX_CLIENTS]` once below the
cap. -/
theorem foldl_sseStep_le (evs : List ClientEvent) :
    ∀ n : Nat, n ≤ MAX_CLIENTS → evs.foldl sseStep n ≤ MAX_CLIENTS := by
  induction evs with
  | nil => intro n hn; simpa using hn
  | cons ev evs ih =>
      intro n hn
      rw [List.foldl_cons]
      apply ih
      cases ev with
      | connect =>
          simp only [sseStep, sseConnect]
          by_cases h : MAX_CLIENTS ≤ n
          · rw [if_pos h]; exact hn
          · rw [if_neg h]; omega
      | disconnect =>
          simp only [sseStep, sseDisconnect]
          omega

/-- C2: for every sequence of subscriber connect/disconnect events the
active-client count never exceeds MAX_CLIENTS = 5; a connection attempt
arriving at the cap is rejected (not registered, count unchanged), and
after one open connection closes the next connection attempt succeeds
(src/app.py lines 781-836, src/state.py lines 9-11). -/
theorem sse_client_cap (evs : List ClientEvent)
    (hfull : runClients evs = MAX_CLIENTS) :
    (∀ evs2 : List ClientEvent, runClients evs2 ≤ MAX_CLIENTS) ∧
      sseConnect (runClients evs) = (MAX_CLIENTS, false) ∧
      (sseConnect (sseDisconnect (runClients evs))).2 = true ∧
      (sseConnect (sseDisconnect (runClients evs))).1 = MAX_CLIENTS := by
  refine ⟨fun evs2 => foldl_sseStep_le evs2 0 (by simp [MAX_CLIENTS]), ?_, ?_, ?_⟩
  · rw [hfull]
    simp [sseConnect]
  · rw [hfull]
    simp [sseConnect, sseDisconnect, MAX_CLIENTS]
  · rw [hfull]
    simp [sseConnect, sseDisconnect, MAX_CLIENTS]

/-- Witness for C2: five connections fill the cap; the sixth is rejected;
after a disconnect a new connection is accepted. -/
theorem sse_client_cap_witness :
    runClients [.connect, .connect, .connect, .connect, .connect]
        = MAX_CLIENTS ∧
      ((∀ evs2 : List ClientEvent, runClients evs2 ≤ MAX_CLIENTS) ∧
        sseConnect
            (runClients [.connect, .connect, .connect, .connect, .connect])
          = (MAX_CLIENTS, false) ∧
        (sseConnect (sseDisconnect
            (runClients
              [.connect, .connect, .connect, .connect, .connect]))).2
          = true ∧
        (sseConnect (sseDisconnect
            (runClients
              [.connect, .connect, .connect, .connect, .connect]))).1
          = MAX_CLIENTS) :=
  ⟨by decide,
   sse_client_cap [.connect, .connect, .connect, .connect, .connect]
     (by decide)⟩

/- ------------------------------------------------------------------ -/
/- Incremental running mean of simulation-time deltas
   (src/network.py lines 96-100 for the TCP ingest loop and lines
   147-151 for the fake-data generator):
       avg_dt = (avg_dt * count + dt) / (count + 1); count += 1
   starting from avg_dt = 0.0, count = 0, over exact rationals. -/

/-- One `avg_dt` update step (src/network.py lines 98-99). -/
def avgStep (st : ℚ × Nat) (d : ℚ) : ℚ × Nat :=
  ((st.1 * (st.2 : ℚ) + d) / ((st.2 : ℚ) + 1), st.2 + 1)

/-- State of the running mean after a sequence of deltas, from the initial
`avg_dt = 0`, `count = 0` (src/network.py lines 66-67). -/
def runAvg (ds : List ℚ) : ℚ × Nat :=
  ds.foldl avgStep (0, 0)

/-- General invariant of the incremental mean: starting from a true mean
of `c > 0` prior samples, the fold yields the mean of all samples. -/
theorem foldl_avgStep (ds : List ℚ) :
    ∀ (avg : ℚ) (c : Nat), 0 < c →
      ds.foldl avgStep (avg, c)
        = ((avg * c + ds.sum) / ((c : ℚ) + ds.length), c + ds.length) := by
  induction ds with
  | nil =>
      intro avg c hc
      have hcne : (c : ℚ) ≠ 0 := Nat.cast_ne_zero.mpr (Nat.pos_iff_ne_zero.mp hc)
      simp [mul_div_assoc, mul_div_cancel_right₀ _ hcne]
  | cons d ds ih =>
      intro avg c hc
      rw [List.foldl_cons]
      have hstep : avgStep (avg, c) d
          = ((avg * c + d) / ((c : ℚ) + 1), c + 1) := rfl
      rw [hstep, ih _ (c + 1) (Nat.succ_pos c)]
      have hne : ((c : ℚ) + 1) ≠ 0 := by positivity
      simp only [Prod.mk.injEq]
      constructor
      · rw [Nat.cast_add, Nat.cast_one, div_mul_cancel₀ _ hne]
        congr 1
        · simp only [List.sum_cons]
          ring
        · simp only [List.length_cons]
          push_cast
          ring
      · simp only [List.length_cons]
        omega

/-- C7: after k >= 1 deltas the incrementally maintained `avg_dt` equals
the arithmetic mean of all k deltas, and the count equals k
(src/network.py lines 96-100, 147-151; exact rational arithmetic). -/
theorem avg_dt_is_mean (ds : List ℚ) (h : ds ≠ []) :
    (runAvg ds).1 = ds.sum / (ds.length : ℚ) ∧ (runAvg ds).2 = ds.length := by
  cases ds with
  | nil => exact absurd rfl h
  | cons d ds =>
      have hfirst : avgStep (0, 0) d = (d, 1) := by
        simp [avgStep]
      have := foldl_avgStep ds d 1 Nat.one_pos
      rw [runAvg, List.foldl_cons, hfirst, this]
      constructor
      · simp only [List.sum_cons, List.length_cons]
        push_cast
        ring_nf
      · simp [Nat.add_comm]

/-- Witness for C7 on the deltas [1, 2]: mean 3/2, count 2. -/
theorem avg_dt_is_mean_witness :
    ([(1 : ℚ), 2] ≠ []) ∧
      ((runAvg [(1 : ℚ), 2]).1
          = ([(1 : ℚ), 2].sum / (([(1 : ℚ), 2].length : Nat) : ℚ)) ∧
        (runAvg [(1 : ℚ), 2]).2 = [(1 : ℚ), 2].length) :=
  ⟨by simp, avg_dt_is_mean [(1 : ℚ), 2] (by simp)⟩

/- ------------------------------------------------------------------ -/
/- Control-packet rate limiter (src/network.py lines 26-50):
       now = time.monotonic()
       if now - _last_ctrl_ts < _MIN_CTRL_INTERVAL: return
       _last_ctrl_ts = now
       ... struct.pack + sendall ...
   The module-level `_last_ctrl_ts` starts at 0.0 (line 15). -/

/-- Modelled from the spec: `_MIN_CTRL_INTERVAL = UPDATE_MS / 1000.0`
(src/network.py line 14) where `UPDATE_MS` is defined in `constants.py`,
a file of this repository that is not under src/.  The spec gives the
observed minimum interval as 10 ms and the app.py twin defines
`UPDATE_MS = 10` (src/app.py line 56), so the interval is 10/1000 s. -/
def MIN_CTRL_INTERVAL : ℚ := 10 / 1000

/-- Rate-limited control send (src/network.py lines 34-39): given the
stored `_last_ctrl_ts` and the monotonic clock value `now`, return the
new stored timestamp and whether a frame was transmitted. -/
def send_control_packet (last : ℚ) (now : ℚ) : ℚ × Bool :=
  if now - last < MIN_CTRL_INTERVAL then (last, false) else (now, true)

/-- Run a sequence of `send_control_packet` calls at the given monotonic
timestamps, threading the module-level `_last_ctrl_ts`; returns the final
stored timestamp and the per-call sent flags in call order. -/
def runCtrl (last : ℚ) : List ℚ → ℚ × List Bool
  | [] => (last, [])
  | t :: ts =>
      let s := send_control_packet last t
      let r := runCtrl s.1 ts
      (r.1, s.2 :: r.2)

/-- A successful send happens only when the minimum interval has elapsed,
and it records `now` as the new stored timestamp. -/
theorem send_control_packet_gap (last t : ℚ)
    (h : (send_control_packet last t).2 = true) :
    MIN_CTRL_INTERVAL ≤ t - last ∧ (send_control_packet last t).1 = t := by
  unfold send_control_packet at h ⊢
  by_cases hc : t - last < MIN_CTRL_INTERVAL
  · rw [if_pos hc] at h
    exact absurd h (by simp)
  · rw [if_neg hc]
    exact ⟨not_lt.mp hc, rfl⟩

/-- The stored last-send timestamp never decreases along a run. -/
theorem runCtrl_state_mono (ts : List ℚ) :
    ∀ last : ℚ, last ≤ (runCtrl last ts).1 := by
  induction ts with
  | nil => intro last; simp [runCtrl]
  | cons t ts ih =>
      intro last
      show last ≤ (runCtrl (send_control_packet last t).1 ts).1
      by_cases hc : t - last < MIN_CTRL_INTERVAL
      · have hs : (send_control_packet last t).1 = last := by
          unfold send_control_packet
          rw [if_pos hc]
        rw [hs]
        exact ih last
      · have hge : MIN_CTRL_INTERVAL ≤ t - last := not_lt.mp hc
        have hpos : (0 : ℚ) < MIN_CTRL_INTERVAL := by norm_num [MIN_CTRL_INTERVAL]
        have hs : (send_control_packet last t).1 = t := by
          unfold send_control_packet
          rw [if_neg hc]
        rw [hs]
        have := ih t
        linarith

/-- C4: at most one control frame is sent per `_MIN_CTRL_INTERVAL`: in any
run of calls, a successful send at clock `t` followed — after any further
calls `mid` — by another successful send at clock `u` satisfies
`u - t >= MIN_CTRL_INTERVAL`; and three calls within 5 ms, the first
arriving at least one interval after the initial `_last_ctrl_ts = 0`,
transmit exactly one frame — the first — and silently drop the other two
(src/network.py lines 14-15, 26-50).  The decomposition reflects one run:
`pre` are the calls before `t`; after the send at `t` the stored timestamp
is `t`, so the state seen by the call at `u` is `(runCtrl t mid).1`. -/
theorem ctrl_rate_limited (last0 t u : ℚ) (pre mid : List ℚ)
    (ht : (send_control_packet (runCtrl last0 pre).1 t).2 = true)
    (hu : (send_control_packet (runCtrl t mid).1 u).2 = true) :
    MIN_CTRL_INTERVAL ≤ u - t ∧
      (∀ t1 t2 t3 : ℚ, MIN_CTRL_INTERVAL ≤ t1 → t1 ≤ t2 → t2 ≤ t3 →
        t3 - t1 < 5 / 1000 →
        (runCtrl 0 [t1, t2, t3]).2 = [true, false, false]) := by
  constructor
  · obtain ⟨hgap_u, _⟩ := send_control_packet_gap _ u hu
    have hmono : t ≤ (runCtrl t mid).1 := runCtrl_state_mono mid t
    linarith
  · intro t1 t2 t3 h1 h12 h23 hwin
    have hint : MIN_CTRL_INTERVAL = 10 / 1000 := rfl
    have hn1 : ¬ (t1 - 0 < MIN_CTRL_INTERVAL) := not_lt.mpr (by linarith)
    have hp2 : t2 - t1 < MIN_CTRL_INTERVAL := by
      rw [hint]
      linarith
    have hp3 : t3 - t1 < MIN_CTRL_INTERVAL := by
      rw [hint]
      linarith
    simp only [runCtrl, send_control_packet, if_neg hn1, if_pos hp2, if_pos hp3]

/-- Witness for C4: a run with `pre = []`, a send at t = 1, `mid = []` and a
send at u = 2, yielding the interval bound and the three-call scenario. -/
theorem ctrl_rate_limited_witness :
    ((send_control_packet (runCtrl 0 []).1 1).2 = true) ∧
      ((send_control_packet (runCtrl (1 : ℚ) []).1 2).2 = true) ∧
      (MIN_CTRL_INTERVAL ≤ (2 : ℚ) - 1 ∧
        (∀ t1 t2 t3 : ℚ, MIN_CTRL_INTERVAL ≤ t1 → t1 ≤ t2 → t2 ≤ t3 →
          t3 - t1 < 5 / 1000 →
          (runCtrl 0 [t1, t2, t3]).2 = [true, false, false])) :=
  ⟨by norm_num [runCtrl, send_control_packet, MIN_CTRL_INTERVAL],
   by norm_num [runCtrl, send_control_packet, MIN_CTRL_INTERVAL],
   ctrl_rate_limited 0 1 2 [] []
     (by norm_num [runCtrl, send_control_packet, MIN_CTRL_INTERVAL])
     (by norm_num [runCtrl, send_control_packet, MIN_CTRL_INTERVAL])⟩

/- ------------------------------------------------------------------ -/
/- Binary packet codec.  The repository packs and unpacks frames with
   Python `struct` format strings of little-endian 32-bit floats
   ("<4f" for the control frame, src/app.py line 53, src/main.py line 25;
   the inbound telemetry format comes from config.yaml).  Each 32-bit
   float is represented here by its IEEE-754 bit pattern, a Nat < 2^32;
   the float-to-bits conversion is the identity on this representation,
   which is exact for every value representable as a 32-bit float.
   A byte is a Nat < 256; multi-byte fields are little-endian. -/

/-- Serialize one 32-bit value into four little-endian bytes. -/
def word32ToLE (v : Nat) : List Nat :=
  [v % 256, v / 256 % 256, v / 65536 % 256, v / 16777216 % 256]

/-- Recombine four little-endian bytes into one 32-bit value. -/
def leToWord32 (b0 b1 b2 b3 : Nat) : Nat :=
  b0 + 256 * (b1 + 256 * (b2 + 256 * b3))

/-- Python `struct.pack` for a little-endian float32 sequence format
(`"<Nf"`): concatenate the 4-byte encodings field by field. -/
def structPackFloats : List Nat → List Nat
  | [] => []
  | v :: vs => word32ToLE v ++ structPackFloats vs

/-- Python `struct.unpack` for a little-endian float32 sequence format:
split the byte string into consecutive 4-byte groups. -/
def structUnpackFloats : List Nat → List Nat
  | b0 :: b1 :: b2 :: b3 :: rest => leToWord32 b0 b1 b2 b3 :: structUnpackFloats rest
  | _ => []

/-- Decoding a frame: `struct.unpack` then name each value through the
configured channel-name → field-index mapping (src/utils.py lines 15-18;
identical copies in src/listener.py lines 43-45 and src/app.py lines
114-117). -/
def decode_packet (data : List Nat) (mapping : List (String × Nat)) :
    List (String × Nat) :=
  let values := structUnpackFloats data
  mapping.map fun p => (p.1, values.getD p.2 0)

/-- Encoding the outbound control frame: `struct.pack(FMT, zero, motor,
assist, k)` with `FMT = "<4f"` (src/main.py lines 25, 47-50; the same
pack in src/network.py line 41 and src/app.py line 142). -/
def build_payload (zero motor assist k : Nat) : List Nat :=
  structPackFloats [zero, motor, assist, k]

/-- Unpacking inverts packing field-wise, up to reduction mod 2^32. -/
theorem structUnpack_structPack (vs : List Nat) :
    structUnpackFloats (structPackFloats vs) = vs.map (· % 4294967296) := by
  induction vs with
  | nil => rfl
  | cons v vs ih =>
      show structUnpackFloats (word32ToLE v ++ structPackFloats vs) = _
      rw [show word32ToLE v ++ structPackFloats vs
            = v % 256 :: (v / 256 % 256) :: (v / 65536 % 256)
              :: (v / 16777216 % 256) :: structPackFloats vs from rfl]
      rw [show structUnpackFloats
              (v % 256 :: (v / 256 % 256) :: (v / 65536 % 256)
                :: (v / 16777216 % 256) :: structPackFloats vs)
            = leToWord32 (v % 256) (v / 256 % 256) (v / 65536 % 256)
                (v / 16777216 % 256) :: structUnpackFloats (structPackFloats vs)
          from rfl]
      rw [ih, List.map_cons]
      congr 1
      unfold leToWord32
      omega

/-- The packed frame of an n-field float32 format is exactly 4n bytes. -/
theorem structPackFloats_length (vs : List Nat) :
    (structPackFloats vs).length = 4 * vs.length := by
  induction vs with
  | nil => rfl
  | cons v vs ih =>
      show (word32ToLE v ++ structPackFloats vs).length = _
      simp only [List.length_append, List.length_cons, ih]
      simp [word32ToLE]
      omega

/-- C6: every outbound control frame is exactly 16 bytes — four
little-endian 32-bit floats packed in the fixed order zero, motor,
assist, k, as witnessed by unpacking the four 4-byte groups back to the
four values in that order (src/app.py line 53, src/main.py line 25,
src/network.py line 41). -/
theorem control_frame_16_bytes (zero motor assist k : Nat) :
    (build_payload zero motor assist k).length = 16 ∧
      structUnpackFloats (build_payload zero motor assist k)
        = [zero % 4294967296, motor % 4294967296,
           assist % 4294967296, k % 4294967296] := by
  constructor
  · rw [build_payload, structPackFloats_length]
    rfl
  · rw [build_payload, structUnpack_structPack]
    rfl

/-- C5: decoding the packed 4-float control frame through any layout that
maps each channel name to a distinct in-range index reconstructs the
original channel values exactly — bit patterns below 2^32, i.e. every
value representable as a 32-bit float, survive the round trip
(src/utils.py lines 15-18, src/main.py lines 47-50, src/network.py
line 41). -/
theorem decode_encode_round_trip (v0 v1 v2 v3 : Nat)
    (h0 : v0 < 4294967296) (h1 : v1 < 4294967296)
    (h2 : v2 < 4294967296) (h3 : v3 < 4294967296)
    (mapping : List (String × Nat))
    (hidx : ∀ p ∈ mapping, p.2 < 4)
    (hdist : mapping.Pairwise fun p q => p.2 ≠ q.2) :
    decode_packet (structPackFloats [v0, v1, v2, v3]) mapping
      = mapping.map fun p => (p.1, [v0, v1, v2, v3].getD p.2 0) := by
  unfold decode_packet
  rw [structUnpack_structPack]
  have hv : [v0, v1, v2, v3].map (· % 4294967296) = [v0, v1, v2, v3] := by
    simp only [List.map_cons, List.map_nil]
    rw [Nat.mod_eq_of_lt h0, Nat.mod_eq_of_lt h1,
      Nat.mod_eq_of_lt h2, Nat.mod_eq_of_lt h3]
  rw [hv]

/-- Witness for C5: the bit patterns of 1.0f, -2.5f, 0.0f and 100.0f
through the control-frame layout in its natural order permuted. -/
theorem decode_encode_round_trip_witness :
    ((1065353216 : Nat) < 4294967296 ∧ (3223322624 : Nat) < 4294967296 ∧
      (0 : Nat) < 4294967296 ∧ (1120403456 : Nat) < 4294967296) ∧
      ((∀ p ∈ [("zero", 0), ("motor", 1), ("assist", 2), ("k", 3)],
          (p : String × Nat).2 < 4) ∧
        ([("zero", 0), ("motor", 1), ("assist", 2), ("k", 3)].Pairwise
          fun p q => p.2 ≠ q.2)) ∧
      decode_packet
          (structPackFloats [1065353216, 3223322624, 0, 1120403456])
          [("zero", 0), ("motor", 1), ("assist", 2), ("k", 3)]
        = [("zero", 1065353216), ("motor", 3223322624),
           ("assist", 0), ("k", 1120403456)] := by
  refine ⟨⟨by decide, by decide, by decide, by decide⟩,
    ⟨by decide, by decide⟩, ?_⟩
  have h := decode_encode_round_trip 1065353216 3223322624 0 1120403456
    (by decide) (by decide) (by decide) (by decide)
    [("zero", 0), ("motor", 1), ("assist", 2), ("k", 3)]
    (by decide) (by decide)
  rw [h]
  rfl

/- ------------------------------------------------------------------ -/
/- UDP app variant of send_control_packet (src/app.py lines 134-144):
   it packs the four control values and sends one datagram via
   `sock.sendto`; the function reads no clock and keeps no state, so no
   call is ever dropped, however closely calls are spaced. -/

/-- The UDP variant of the control sender (src/app.py lines 134-144):
one call produces one datagram, the packed 4-float payload. -/
def app_send_control_packet (zero motor assist k : Nat) : List Nat :=
  structPackFloats [zero, motor, assist, k]

/-- Datagrams transmitted by a sequence of calls to the UDP-variant
control sender: one per call, in call order. -/
def appCtrlRun (calls : List (Nat × Nat × Nat × Nat)) : List (List Nat) :=
  calls.map fun c => app_send_control_packet c.1 c.2.1 c.2.2.1 c.2.2.2

/-- C9: in the UDP app variant every `send_control_packet` call packs and
transmits exactly one 16-byte datagram — one datagram per call with no
rate limiting, so no call is dropped regardless of call spacing
(src/app.py lines 134-144). -/
theorem app_ctrl_every_call_sends (calls : List (Nat × Nat × Nat × Nat)) :
    (appCtrlRun calls).length = calls.length ∧
      (appCtrlRun calls).map List.length
        = List.replicate calls.length 16 := by
  constructor
  · simp [appCtrlRun]
  · induction calls with
    | nil => rfl
    | cons c cs ih =>
        simp only [appCtrlRun, List.map_cons, List.length_cons,
          List.replicate_succ] at ih ⊢
        rw [ih]
        have hpl : (app_send_control_packet c.1 c.2.1 c.2.2.1 c.2.2.2).length
            = 16 := by
          rw [show app_send_control_packet c.1 c.2.1 c.2.2.1 c.2.2.2
                = structPackFloats [c.1, c.2.1, c.2.2.1, c.2.2.2] from rfl,
            structPackFloats_length]
          rfl
        rw [hpl]

/- ------------------------------------------------------------------ -/
/- UDP ingest loop length guard (src/listener.py lines 78-96 and
   src/app.py lines 176-184):
       data, _ = sock.recvfrom(expected)
       ...
       if len(data) != expected:
           continue
       decoded = decode_packet(data, fmt, mapping)
   A datagram of the wrong byte length is discarded before any decoding
   touches it; the loop then continues with the next receive. -/

/-- Per-datagram step of the UDP ingest loop: a wrong-length datagram
yields no sample at all; a well-sized one is decoded whole
(src/listener.py lines 85-88, src/app.py lines 182-184). -/
def udpIngestStep (expected : Nat) (mapping : List (String × Nat))
    (data : List Nat) : Option (List (String × Nat)) :=
  if data.length ≠ expected then none
  else some (decode_packet data mapping)

/-- Samples produced by the ingest loop across a sequence of received
datagrams, in arrival order; the loop body never raises, so every
datagram is processed. -/
def udpIngest (expected : Nat) (mapping : List (String × Nat))
    (datagrams : List (List Nat)) : List (List (String × Nat)) :=
  datagrams.filterMap (udpIngestStep expected mapping)

/-- C3: a datagram whose length differs from `expected` (for instance 111
bytes against `expected_size = 112`) produces zero samples — it is never
partially decoded — and the loop continues: the samples of a run are
exactly those of the datagrams before and after the malformed one
(src/listener.py lines 78-96, src/app.py lines 176-184). -/
theorem malformed_frame_dropped (expected : Nat)
    (mapping : List (String × Nat)) (bad : List Nat)
    (hbad : bad.length ≠ expected) (pre post : List (List Nat)) :
    udpIngestStep expected mapping bad = none ∧
      udpIngest expected mapping (pre ++ bad :: post)
        = udpIngest expected mapping pre ++ udpIngest expected mapping post := by
  have hstep : udpIngestStep expected mapping bad = none := by
    unfold udpIngestStep
    rw [if_pos hbad]
  refine ⟨hstep, ?_⟩
  unfold udpIngest
  rw [List.filterMap_append, List.filterMap_cons, hstep]

/-- Witness for C3: a 111-byte datagram between two 112-byte ones, with
`expected_size = 112`. -/
theorem malformed_frame_dropped_witness :
    ((List.replicate 111 0).length ≠ 112) ∧
      (udpIngestStep 112 [("time", 0)] (List.replicate 111 0) = none ∧
        udpIngest 112 [("time", 0)]
            ([List.replicate 112 1] ++ List.replicate 111 0
              :: [List.replicate 112 2])
          = udpIngest 112 [("time", 0)] [List.replicate 112 1]
            ++ udpIngest 112 [("time", 0)] [List.replicate 112 2]) :=
  ⟨by simp,
   malformed_frame_dropped 112 [("time", 0)] (List.replicate 111 0)
     (by simp) [List.replicate 112 1] [List.replicate 112 2]⟩

/- ------------------------------------------------------------------ -/
/- Client-side display window and ring-buffer cap (src/dash_app.py).
   The `update_window` callback (lines 377-393) stores a new window
   length in the `window-sec` dcc.Store: the "2s" button stores 0.4,
   the "10s" button stores 2; its only output is that store.  The
   graph-update JS (lines 491-493) recomputes the per-trace point cap as
       maxPoints = Math.round(winSec / dt)
   with `dt = avg_dt` when a live estimate is available. -/

/-- Modelled from the spec: the default display window `N_WINDOW_SEC`
is defined in `constants.py`, not under src/; the spec's scenario starts
from a 10 s window and the app.py twin defines `N_WINDOW_SEC = 10`
(src/app.py line 57). -/
def N_WINDOW_SEC : ℚ := 10

/-- The two window-selection buttons (src/dash_app.py lines 76-77). -/
inductive WindowBtn where
  | win2
  | win10
deriving DecidableEq

/-- The `update_window` callback (src/dash_app.py lines 384-393):
"window-2-btn" stores 0.4, "window-10-btn" stores 2, and with no
trigger the current value is kept. -/
def update_window (trigger : Option WindowBtn) (current : ℚ) : ℚ :=
  match trigger with
  | none => current
  | some .win2 => 2 / 5
  | some .win10 => 2

/-- Client chart state: the stored `window-sec` value and the
per-channel point buffers held by the rendered traces. -/
structure ClientState where
  windowSec : ℚ
  buffers : List (String × List (ℚ × ℚ))

/-- Effect of a window-button event on the client: the callback's only
output is the `window-sec` store (src/dash_app.py lines 377-383); every
channel buffer is left untouched. -/
def applyWindowChange (st : ClientState) (trigger : Option WindowBtn) :
    ClientState :=
  { st with windowSec := update_window trigger st.windowSec }

/-- Ring-buffer cap of the graph-update callback (src/dash_app.py lines
491-493): `maxPoints = Math.round(winSec / dt)`. -/
def clientMaxPoints (winSec avg_dt : ℚ) : ℤ :=
  round (winSec / avg_dt)

/-- C8: with `avg_dt = 0.01`, a client whose display window goes from the
10 s default to 2 s (the stored `window-sec` transition effected by the
"window-10-btn" branch of `update_window`) has its ring-buffer cap
`round(window_seconds / avg_dt)` recomputed from 1000 to 200, and no
channel data structure is discarded by the window change
(src/dash_app.py lines 377-393, 491-493). -/
theorem window_cap_recompute (st : ClientState)
    (hw : st.windowSec = N_WINDOW_SEC) :
    clientMaxPoints st.windowSec (1 / 100) = 1000 ∧
      (applyWindowChange st (some .win10)).windowSec = 2 ∧
      clientMaxPoints (applyWindowChange st (some .win10)).windowSec (1 / 100)
        = 200 ∧
      (applyWindowChange st (some .win10)).buffers = st.buffers := by
  refine ⟨?_, rfl, ?_, rfl⟩
  · rw [hw]
    norm_num [clientMaxPoints, N_WINDOW_SEC]
  · norm_num [clientMaxPoints, applyWindowChange, update_window]

/-- Witness for C8: a concrete client at the 10 s default with one ankle
point buffered. -/
theorem window_cap_recompute_witness :
    (ClientState.mk 10 [("ankle", [(0, 1)])]).windowSec = N_WINDOW_SEC ∧
      (clientMaxPoints (ClientState.mk 10 [("ankle", [(0, 1)])]).windowSec
          (1 / 100) = 1000 ∧
        (applyWindowChange (ClientState.mk 10 [("ankle", [(0, 1)])])
            (some .win10)).windowSec = 2 ∧
        clientMaxPoints
            (applyWindowChange (ClientState.mk 10 [("ankle", [(0, 1)])])
              (some .win10)).windowSec (1 / 100) = 200 ∧
        (applyWindowChange (ClientState.mk 10 [("ankle", [(0, 1)])])
            (some .win10)).buffers
          = (ClientState.mk 10 [("ankle", [(0, 1)])]).buffers) :=
  ⟨rfl, window_cap_recompute (ClientState.mk 10 [("ankle", [(0, 1)])]) rfl⟩
